import Mathlib

/-!
Verification development for the TTCAN rating scraper
(`backend/scrapping.py`).  The Python functions relevant to the
pagination-driven harvest, checkpointing, deduplication, retry and
sheet-upload pipeline are shallowly embedded as executable Lean
definitions, and the behavioural claims about them are settled as
theorems below.  External effects (HTTP transport, the Google Sheets
client, the clock) are modelled as explicit functional parameters;
sleeps and sheet operations are recorded in traces.
-/

namespace TTCan

namespace ScraperConfig

/-- Constant `MAX_RETRIES = 3` from class `ScraperConfig`. -/
def MAX_RETRIES : Nat := 3

/-- Constant `HISTORY_CUTOFF_YEAR = 2010` from class `ScraperConfig`. -/
def HISTORY_CUTOFF_YEAR : Int := 2010

/-- Constant `BATCH_SIZE = 5000` from class `ScraperConfig`.  The sheet-sink
model below is parametrised over this value so the behaviour can be stated
for any configured batch size. -/
def BATCH_SIZE : Nat := 5000

/-- Constant `BATCH_DELAY = 2` from class `ScraperConfig`. -/
def BATCH_DELAY : Nat := 2

end ScraperConfig

namespace ScraperValidation

/-- Constant `MIN_COLUMNS_FOR_RATING_DATA = 5` from class `ScraperValidation`. -/
def MIN_COLUMNS_FOR_RATING_DATA : Nat := 5

/-- Constant `MIN_DATE_LENGTH = 5` from class `ScraperValidation`. -/
def MIN_DATE_LENGTH : Nat := 5

/-- Constant `MAX_RATING = 5000` from class `ScraperValidation`. -/
def MAX_RATING : Nat := 5000

end ScraperValidation

/-! Models of the Python string primitives used by the scraper.  They are
implemented by structural recursion over the character list of a string so
that every definition evaluates inside the kernel. -/

/-- Model of Python `str.strip()` with no argument: remove leading and
trailing whitespace. -/
def pyStrip (s : String) : String :=
  ⟨((s.data.dropWhile Char.isWhitespace).reverse.dropWhile Char.isWhitespace).reverse⟩

/-- Python string truthiness: a string is truthy when non-empty. -/
def pyTruthy (s : String) : Bool := !s.data.isEmpty

/-- Tail of a Python integer-literal digit run: digits with single
underscores allowed between digits, as accepted by `int(...)`. -/
def pyDigitsTail : List Char → Bool
  | [] => true
  | '_' :: c :: rest => c.isDigit && pyDigitsTail rest
  | c :: rest => c.isDigit && pyDigitsTail rest

/-- Nonempty digit run acceptable to Python `int(...)` after the sign. -/
def pyDigitsOk : List Char → Bool
  | [] => false
  | c :: rest => c.isDigit && pyDigitsTail rest

/-- Numeric value of a list of decimal digits. -/
def digitsListToNat (l : List Char) : Nat :=
  l.foldl (fun n c => n * 10 + (c.toNat - 48)) 0

/-- Numeric value of a string of decimal digits. -/
def digitsToNat (s : String) : Nat := digitsListToNat s.data

/-- Model of Python `int(s)` on a string: strip whitespace, allow one
leading sign, then digits with single interior underscores.  Returns
`none` where Python raises `ValueError`. -/
def pyInt (s : String) : Option Int :=
  let t := (pyStrip s).data
  match t with
  | '+' :: rest =>
    if pyDigitsOk rest then
      some (Int.ofNat (digitsListToNat (rest.filter (fun c => c ≠ '_'))))
    else none
  | '-' :: rest =>
    if pyDigitsOk rest then
      some (-(Int.ofNat (digitsListToNat (rest.filter (fun c => c ≠ '_')))))
    else none
  | _ =>
    if pyDigitsOk t then
      some (Int.ofNat (digitsListToNat (t.filter (fun c => c ≠ '_'))))
    else none

/-- Whether Python `int(s)` succeeds. -/
def pyIntOk (s : String) : Bool := (pyInt s).isSome

/-- Model of Python `s.isdigit()` (ASCII digits). -/
def pyIsDigit (s : String) : Bool := !s.data.isEmpty && s.data.all Char.isDigit

/-- Whether one character list occurs at the head of another. -/
def listStartsWith : List Char → List Char → Bool
  | [], _ => true
  | _ :: _, [] => false
  | a :: as, b :: bs => (a == b) && listStartsWith as bs

/-- Whether `pat` occurs as a contiguous run inside the second list. -/
def hasSubAux (pat : List Char) : List Char → Bool
  | [] => pat.isEmpty
  | a :: rest => listStartsWith pat (a :: rest) || hasSubAux pat rest

/-- Model of Python `pat in hay` on strings. -/
def pyContains (hay pat : String) : Bool := hasSubAux pat.data hay.data

/-- Model of Python `s.lower()` (ASCII case folding). -/
def pyLower (s : String) : String := ⟨s.data.map Char.toLower⟩

/-- Worker for `pySplit`: scan the character list, splitting at each
occurrence of the (non-empty) separator; `cur` accumulates the current
piece reversed, and the fuel (an upper bound on the scan length) keeps
the recursion structural. -/
def pySplitAux (sep : List Char) : Nat → List Char → List Char → List (List Char)
  | _, [], cur => [cur.reverse]
  | 0, l, cur => [cur.reverse ++ l]
  | fuel + 1, a :: rest, cur =>
    if listStartsWith sep (a :: rest) then
      cur.reverse :: pySplitAux sep fuel (rest.drop (sep.length - 1)) []
    else
      pySplitAux sep fuel rest (a :: cur)

/-- Model of Python `s.split(sep)` for a non-empty separator. -/
def pySplit (s sep : String) : List String :=
  (pySplitAux sep.data s.data.length s.data []).map (fun l => ⟨l⟩)

/-! Data model.  A `Player` is the dictionary built by
`parse_player_row`; every key it ever receives is a field, so the
`"field in player"` membership tests of `validate_player_data` are
satisfied by construction. -/

/-- A candidate player record, as built by `parse_player_row`. -/
structure Player where
  name : String
  province : String
  gender : String
  rating : String
  period : String
  lastPlayed : String
  age : String
  playerLink : Option String
deriving DecidableEq, Repr

/-- One table cell of a listing row: its stripped text and, for the name
cell, the optional `href` of an inner anchor tag. -/
structure Cell where
  text : String
  link : Option String
deriving DecidableEq, Repr

/-- Model of `validate_player_data` (scrapping.py lines 84-98): every
required field (`Name`, `Province`, `Rating`, `Period`, `Last Played`)
must be non-empty after stripping, `Gender` must be present (structurally
true here), and `int(player["Rating"])` must not raise.  Note: no bound
against `MAX_RATING` is checked here. -/
def validate_player_data (p : Player) : Bool :=
  pyTruthy (pyStrip p.name) && pyTruthy (pyStrip p.province) &&
    pyTruthy (pyStrip p.rating) && pyTruthy (pyStrip p.period) &&
    pyTruthy (pyStrip p.lastPlayed) && pyIntOk p.rating

/-- Model of `parse_player_row` (scrapping.py lines 340-364): a row with
fewer than 7 `td` cells yields `None`; otherwise the player dictionary is
built from cells 1-6 (with the optional link of cell 1) and kept only if
`validate_player_data` holds. -/
def parse_player_row (cells : List Cell) : Option Player :=
  match cells with
  | _ :: c1 :: c2 :: c3 :: c4 :: c5 :: c6 :: _ =>
    let player : Player :=
      { name := c1.text, province := c2.text, gender := c3.text,
        rating := c4.text, period := c5.text, lastPlayed := c6.text,
        age := "", playerLink := c1.link }
    if validate_player_data player then some player else none
  | _ => none

/-- Outcome of fetching one listing page: the `tr` rows of the result
table (header row included), or a transport error surviving the retry
layer.  A page without a result table is `ok []`, which the code treats
identically to a short table. -/
inductive FetchOutcome where
  | ok (rows : List (List Cell))
  | err
deriving Repr

/-- Model of `scrape_players_page` (scrapping.py lines 366-394): the whole
body is wrapped in `try/except Exception`, so a transport error raised by
`make_request_with_retries` is caught and an empty list is returned; a
missing table or a table with only a header also gives `[]`; otherwise
every row after the header is parsed and invalid rows are dropped. -/
def scrape_players_page (fetch : Nat → FetchOutcome) (page : Nat) : List Player :=
  match fetch page with
  | FetchOutcome.err => []
  | FetchOutcome.ok rows =>
    if rows.length ≤ 1 then []
    else (rows.drop 1).filterMap parse_player_row

/-- Model of the age-enrichment pass of the harvest loop (scrapping.py
lines 421-441): players carrying a detail link are fetched concurrently
(modelled by the deterministic `ageFn` from player name to optional age)
and each page player whose name got an age entry has its `Age` field set
to that age, with `None` collapsed to the empty string. -/
def enrichPage (ageFn : String → Option String) (ps : List Player) : List Player :=
  let linkNames := (ps.filter (fun p => p.playerLink.isSome)).map Player.name
  if linkNames.isEmpty then ps
  else ps.map (fun p =>
    if linkNames.contains p.name then { p with age := (ageFn p.name).getD "" } else p)

/-- One fully processed page of the harvest loop: listing scrape followed
by age enrichment (history fetching disabled, as it does not affect the
player accumulation or checkpoint pages). -/
def procPage (fetch : Nat → FetchOutcome) (ageFn : String → Option String)
    (page : Nat) : List Player :=
  enrichPage ageFn (scrape_players_page fetch page)

/-- Model of the `while True` page loop of `scrape_all_players_by_gender`
(scrapping.py lines 396-473).  `cps` records, in order, every
`last_completed_page` value passed to `save_progress_state`: one write
every 5 pages while scraping and one final write of `page - 1` at loop
exit.  `maxPages` mirrors the Python truthiness test
`if max_pages and page > max_pages`.  `fuel` bounds the iteration count;
`none` means the fuel ran out before the natural termination condition
(an empty page) was met. -/
def harvestLoop (proc : Nat → List Player) (maxPages : Option Nat) (hasSession : Bool)
    (page : Nat) (acc : List Player) (cps : List Nat) :
    Nat → Option (List Player × List Nat)
  | 0 => none
  | fuel + 1 =>
    if (match maxPages with
        | some m => decide (0 < m) && decide (m < page)
        | none => false) then
      some (acc, cps ++ (if hasSession then [page - 1] else []))
    else
      if (proc page).isEmpty then
        some (acc, cps ++ (if hasSession then [page - 1] else []))
      else
        harvestLoop proc maxPages hasSession (page + 1) (acc ++ proc page)
          (if hasSession && page % 5 == 0 then cps ++ [page] else cps) fuel

/-- Concatenation of the pages `start, start+1, ..., start+c-1`: the
players accumulated by the loop after `c` non-empty pages. -/
def pagesFrom (proc : Nat → List Player) (start c : Nat) : List Player :=
  ((List.range c).map (fun i => proc (start + i))).flatten

/-- Natural key used by `deduplicate_players`: `(Name, Rating, Province)`. -/
def dedupKey (p : Player) : String × String × String :=
  (p.name, p.rating, p.province)

/-- Accumulator form of `deduplicate_players` (scrapping.py lines
475-488): `seen` is the set of keys already kept; a player whose key is in
`seen` is dropped, otherwise it is kept and its key added. -/
def deduplicate_players_aux : List Player → List (String × String × String) → List Player
  | [], _ => []
  | p :: rest, seen =>
    if dedupKey p ∈ seen then deduplicate_players_aux rest seen
    else p :: deduplicate_players_aux rest (dedupKey p :: seen)

/-- Model of `deduplicate_players`: first occurrence of each
`(Name, Rating, Province)` key wins. -/
def deduplicate_players (players : List Player) : List Player :=
  deduplicate_players_aux players []

/-- A historical rating entry, as built by
`extract_rating_history_from_table`. -/
structure HistoryEntry where
  playerName : String
  period : String
  rating : String
  lastPlayed : String
deriving DecidableEq, Repr

/-- Model of `is_valid_rating_entry` (scrapping.py lines 100-126):
`rating` truthy and all digits, `period_id` truthy and all digits,
`period_date` truthy and longer than `MIN_DATE_LENGTH`, and the numeric
rating strictly below `MAX_RATING`. -/
def is_valid_rating_entry (period_id period_date rating : String) : Bool :=
  if !(pyTruthy rating && pyIsDigit rating) then false
  else if !(pyTruthy period_id && pyIsDigit period_id) then false
  else if !(pyTruthy period_date &&
      decide (ScraperValidation.MIN_DATE_LENGTH < period_date.data.length)) then false
  else if decide (ScraperValidation.MAX_RATING ≤ digitsToNat rating) then false
  else true

/-- Model of `is_after_cutoff_year` (scrapping.py lines 118-125): parse
the trailing `", "`-separated component of the date as an integer and
require it to exceed `HISTORY_CUTOFF_YEAR`; parse failure gives `False`. -/
def is_after_cutoff_year (period_date : String) : Bool :=
  match pyInt ((pySplit period_date ", ").getLastD "") with
  | some year => decide (ScraperConfig.HISTORY_CUTOFF_YEAR < year)
  | none => false

/-- Model of `extract_rating_history_from_table` (scrapping.py lines
197-229): a table with fewer than 2 rows yields nothing; otherwise every
row (header included) with at least `MIN_COLUMNS_FOR_RATING_DATA` columns
whose columns 0, 1 and 4 pass `is_valid_rating_entry` and whose date
passes `is_after_cutoff_year` emits an entry with `Period` and
`LastPlayed` both copied from column 1.  Columns 2 and 3 (province and
gender) are read by the code but not constrained. -/
def extract_rating_history_from_table (rows : List (List String))
    (player_name : String) : List HistoryEntry :=
  if rows.length < 2 then []
  else rows.filterMap (fun col_texts =>
    if col_texts.length < ScraperValidation.MIN_COLUMNS_FOR_RATING_DATA then none
    else
      if is_valid_rating_entry (col_texts.getD 0 "") (col_texts.getD 1 "")
            (col_texts.getD 4 "") &&
          is_after_cutoff_year (col_texts.getD 1 "") then
        some { playerName := player_name, period := col_texts.getD 1 "",
               rating := col_texts.getD 4 "", lastPlayed := col_texts.getD 1 "" }
      else none)

/-- Model of `extract_player_rating_history` (scrapping.py lines 231-240):
per-table extraction over every table of the detail page, concatenated. -/
def extract_player_rating_history (tables : List (List (List String)))
    (player_name : String) : List HistoryEntry :=
  (tables.map (fun table => extract_rating_history_from_table table player_name)).flatten

/-! The retrying fetcher.  The upstream transport is a function from the
attempt index to an optional abstract response (`none` models a raised
`RequestException`); the trace records the result, the number of
`requests.get` calls made, and the sleep durations in seconds. -/

/-- Observable behaviour of one call to `make_request_with_retries`. -/
structure RequestTrace where
  result : Option Nat
  attempts : Nat
  sleeps : List Nat
deriving DecidableEq, Repr

/-- Model of the `for attempt in range(MAX_RETRIES)` loop of
`make_request_with_retries` (scrapping.py lines 243-257), started at
`attempt`: a successful `requests.get` returns at once; a failure on the
last attempt re-raises (result `none`), and otherwise the loop sleeps
`2 ** attempt` seconds and retries. -/
def make_request_with_retries_from (upstream : Nat → Option Nat)
    (maxRetries attempt : Nat) : RequestTrace :=
  if _h : attempt < maxRetries then
    match upstream attempt with
    | some v => ⟨some v, 1, []⟩
    | none =>
      if attempt = maxRetries - 1 then ⟨none, 1, []⟩
      else
        let t := make_request_with_retries_from upstream maxRetries (attempt + 1)
        ⟨t.result, t.attempts + 1, 2 ^ attempt :: t.sleeps⟩
  else ⟨none, 0, []⟩
termination_by maxRetries - attempt

/-- Model of `make_request_with_retries` with the configured
`MAX_RETRIES`. -/
def make_request_with_retries (upstream : Nat → Option Nat) : RequestTrace :=
  make_request_with_retries_from upstream ScraperConfig.MAX_RETRIES 0

/-! The sheet sink.  Google-API calls are abstracted: an oracle maps the
global index of each `append_rows` call to `none` (success) or
`some message` (the exception's string form); `clear` and the header
`append_row` are assumed to succeed as in every observed code path.
Sheet operations and sleep durations are recorded in traces. -/

/-- One observable sheet operation. -/
inductive SheetOp where
  | clear
  | header
  | append (batch : List (List String))
deriving DecidableEq, Repr

/-- Model of `handle_google_api_error` (scrapping.py lines 703-729):
lower-case the error text, classify as non-retryable first, then check
the retryable substrings. -/
def handle_google_api_error (error : String) : Bool :=
  let error_str := pyLower error
  let retryable_errors : List String :=
    ["502", "503", "504",
     "server error", "temporarily unavailable",
     "rate limit", "quota exceeded",
     "timeout", "connection error",
     "internal error",
     "backend error",
     "that\x27s an error"]
  let non_retryable : List String :=
    ["authentication", "unauthorized", "401", "403",
     "not found", "404", "permission denied"]
  if non_retryable.any (fun err => pyContains error_str err) then false
  else retryable_errors.any (fun err => pyContains error_str err)

/-- Model of the inner `while batch_attempt < batch_max_retries` loop of
`write_to_sheet_with_retry` (scrapping.py lines 753-769) for one batch:
`k` is the global index of the next `append_rows` call.  Returns the next
call index, the append attempts made, the sleeps taken, and the exception
finally raised (if any).  The fall-through base case is unreachable for
the configured `batch_max_retries = 2`. -/
def uploadOneBatch (oracle : Nat → Option String) (k : Nat)
    (batch : List (List String)) (batchAttempt batchMax : Nat) :
    Nat × List SheetOp × List Nat × Option String :=
  if _h : batchAttempt < batchMax then
    match oracle k with
    | none => (k + 1, [SheetOp.append batch], [], none)
    | some e =>
      if handle_google_api_error e && batchAttempt + 1 < batchMax then
        let r := uploadOneBatch oracle (k + 1) batch (batchAttempt + 1) batchMax
        (r.1, SheetOp.append batch :: r.2.1, (2 ^ (batchAttempt + 1) + 1) :: r.2.2.1, r.2.2.2)
      else (k + 1, [SheetOp.append batch], [], some e)
  else (k, [], [], none)
termination_by batchMax - batchAttempt

/-- Model of the `for batch_idx in range(total_batches)` loop of
`write_to_sheet_with_retry` (scrapping.py lines 746-771): upload the
batches in order, sleeping `BATCH_DELAY` after each accepted batch, and
stop at the first batch whose retries are exhausted. -/
def runBatches (oracle : Nat → Option String) (k : Nat) :
    List (List (List String)) → Nat × List SheetOp × List Nat × Option String
  | [] => (k, [], [], none)
  | b :: rest =>
    let r1 := uploadOneBatch oracle k b 0 2
    match r1.2.2.2 with
    | some e => (r1.1, r1.2.1, r1.2.2.1, some e)
    | none =>
      let r2 := runBatches oracle r1.1 rest
      (r2.1, r1.2.1 ++ r2.2.1,
       r1.2.2.1 ++ ScraperConfig.BATCH_DELAY :: r2.2.2.1, r2.2.2.2)

/-- The batches uploaded by `write_to_sheet_with_retry`: slice `batch_idx
* BATCH_SIZE .. min((batch_idx + 1) * BATCH_SIZE, len(rows))` for each of
the `(len(rows) + BATCH_SIZE - 1) // BATCH_SIZE` batch indices. -/
def make_batches (rows : List (List String)) (batchSize : Nat) :
    List (List (List String)) :=
  (List.range ((rows.length + batchSize - 1) / batchSize)).map
    (fun i => (rows.drop (i * batchSize)).take batchSize)

/-- Model of the `for session_attempt in range(max_retries)` loop of
`write_to_sheet_with_retry` (scrapping.py lines 740-788): run all
batches; on success return `True`; on a raised batch error that is
retryable and not on the last session attempt, sleep `(2 **
session_attempt) * 5` seconds, re-clear the sheet, rewrite the header and
restart every batch; otherwise return `False`. -/
def sessionAttemptLoop (oracle : Nat → Option String) (k : Nat)
    (batches : List (List (List String))) (maxRetries sessionAttempt : Nat) :
    Bool × List SheetOp × List Nat :=
  if _h : sessionAttempt < maxRetries then
    let r1 := runBatches oracle k batches
    match r1.2.2.2 with
    | none => (true, r1.2.1, r1.2.2.1)
    | some e =>
      if handle_google_api_error e && sessionAttempt < maxRetries - 1 then
        let r2 := sessionAttemptLoop oracle r1.1 batches maxRetries (sessionAttempt + 1)
        (r2.1, r1.2.1 ++ SheetOp.clear :: SheetOp.header :: r2.2.1,
         r1.2.2.1 ++ 2 ^ sessionAttempt * 5 :: r2.2.2)
      else (false, r1.2.1, r1.2.2.1)
  else (false, [], [])
termination_by maxRetries - sessionAttempt

/-- Model of `write_to_sheet_with_retry` (scrapping.py lines 731-788),
parametrised over the configured batch size: clear the sheet and write
the header once up front, then run the session-attempt loop. -/
def write_to_sheet_with_retry (oracle : Nat → Option String)
    (rows : List (List String)) (batchSize maxRetries : Nat) :
    Bool × List SheetOp × List Nat :=
  let r := sessionAttemptLoop oracle 0 (make_batches rows batchSize) maxRetries 0
  (r.1, SheetOp.clear :: SheetOp.header :: r.2.1, r.2.2)

/-! Concrete inputs used by counterexamples and witnesses. -/

/-- A listing row whose rating `"9999"` is not below `MAX_RATING = 5000`. -/
def overMaxCells : List Cell :=
  [⟨"1", none⟩, ⟨"Alice", none⟩, ⟨"ON", none⟩, ⟨"M", none⟩,
   ⟨"9999", none⟩, ⟨"412", none⟩, ⟨"Apr 5, 2025", none⟩]

/-- A fetcher serving one page with a header row and `overMaxCells`. -/
def overMaxFetch : Nat → FetchOutcome := fun _ => FetchOutcome.ok [[], overMaxCells]

/-- The player parsed from `overMaxCells`. -/
def overMaxPlayer : Player :=
  ⟨"Alice", "ON", "M", "9999", "412", "Apr 5, 2025", "", none⟩

/-- The history row of spec Scenario C. -/
def goodHistRow : List String := ["412", "April 5, 2022", "ON", "F", "1500"]

/-- The same history row with the pre-cutoff date of spec Scenario C. -/
def oldHistRow : List String := ["412", "April 5, 2005", "ON", "F", "1500"]

/-- A header row for history tables. -/
def histHeaderRow : List String := ["Period", "Date", "Prov", "Sex", "Rating"]

/-- The history entry extracted from `goodHistRow` for player `"Alice"`. -/
def goodHistEntry : HistoryEntry :=
  ⟨"Alice", "April 5, 2022", "1500", "April 5, 2022"⟩

/-! Helper lemmas about the deduplicator. -/

/-- The accumulator pass only depends on the seen keys as a set. -/
lemma deduplicate_players_aux_congr (l : List Player)
    (s t : List (String × String × String))
    (h : ∀ k, k ∈ s ↔ k ∈ t) :
    deduplicate_players_aux l s = deduplicate_players_aux l t := by
  induction l generalizing s t with
  | nil => rfl
  | cons p rest ih =>
    simp only [deduplicate_players_aux]
    by_cases hk : dedupKey p ∈ s
    · rw [if_pos hk, if_pos ((h _).mp hk), ih s t h]
    · rw [if_neg hk, if_neg (fun hkt => hk ((h _).mpr hkt))]
      have h' : ∀ k, k ∈ dedupKey p :: s ↔ k ∈ dedupKey p :: t := by
        intro k; simp [h k]
      rw [ih _ _ h']

/-- Keys of the kept players avoid the seen set. -/
lemma deduplicate_players_aux_key_not_seen {p : Player} :
    ∀ (l : List Player) (s : List (String × String × String)),
      p ∈ deduplicate_players_aux l s → dedupKey p ∉ s := by
  intro l
  induction l with
  | nil => intro s h; simp [deduplicate_players_aux] at h
  | cons q rest ih =>
    intro s h
    simp only [deduplicate_players_aux] at h
    by_cases hk : dedupKey q ∈ s
    · rw [if_pos hk] at h; exact ih s h
    · rw [if_neg hk] at h
      rcases List.mem_cons.mp h with h | h
      · subst h; exact hk
      · intro hs
        exact ih _ h (List.mem_cons_of_mem _ hs)

/-- The kept players have pairwise distinct keys. -/
lemma deduplicate_players_aux_pairwise :
    ∀ (l : List Player) (s : List (String × String × String)),
      (deduplicate_players_aux l s).Pairwise (fun a b => dedupKey a ≠ dedupKey b) := by
  intro l
  induction l with
  | nil => intro s; simp [deduplicate_players_aux]
  | cons p rest ih =>
    intro s
    simp only [deduplicate_players_aux]
    by_cases hk : dedupKey p ∈ s
    · rw [if_pos hk]; exact ih s
    · rw [if_neg hk]
      refine List.Pairwise.cons ?_ (ih _)
      intro b hb heq
      exact deduplicate_players_aux_key_not_seen rest _ hb (heq ▸ List.mem_cons_self _ _)

/-- Composing two accumulator passes is one pass over the union of the
seen sets. -/
lemma deduplicate_players_aux_compose :
    ∀ (l : List Player) (s t u : List (String × String × String)),
      (∀ k, k ∈ u ↔ k ∈ s ∨ k ∈ t) →
      deduplicate_players_aux (deduplicate_players_aux l s) t =
        deduplicate_players_aux l u := by
  intro l
  induction l with
  | nil => intro s t u _; rfl
  | cons p rest ih =>
    intro s t u h
    simp only [deduplicate_players_aux]
    by_cases hks : dedupKey p ∈ s
    · rw [if_pos hks, if_pos ((h _).mpr (Or.inl hks))]
      exact ih s t u h
    · rw [if_neg hks]
      by_cases hkt : dedupKey p ∈ t
      · rw [if_pos ((h _).mpr (Or.inr hkt))]
        simp only [deduplicate_players_aux, if_pos hkt]
        refine ih (dedupKey p :: s) t u ?_
        intro k
        rw [h k]
        constructor
        · rintro (hk | hk)
          · exact Or.inl (List.mem_cons_of_mem _ hk)
          · exact Or.inr hk
        · rintro (hk | hk)
          · rcases List.mem_cons.mp hk with hk | hk
            · exact Or.inr (hk ▸ hkt)
            · exact Or.inl hk
          · exact Or.inr hk
      · have hku : dedupKey p ∉ u := fun hk => by
          rcases (h _).mp hk with hk | hk
          · exact hks hk
          · exact hkt hk
        rw [if_neg hku]
        simp only [deduplicate_players_aux, if_neg hkt]
        refine congrArg (p :: ·) (ih (dedupKey p :: s) (dedupKey p :: t) (dedupKey p :: u) ?_)
        intro k
        by_cases hkp : k = dedupKey p
        · subst hkp; simp
        · simp only [List.mem_cons, hkp, false_or]
          rw [h k]

/-- The first element kept for a key is the first occurrence in the
input. -/
lemma deduplicate_players_aux_find? :
    ∀ (l : List Player) (s : List (String × String × String))
      (k : String × String × String), k ∉ s →
      (deduplicate_players_aux l s).find? (fun p => decide (dedupKey p = k)) =
        l.find? (fun p => decide (dedupKey p = k)) := by
  intro l
  induction l with
  | nil => intro s k _; rfl
  | cons p rest ih =>
    intro s k hk
    simp only [deduplicate_players_aux]
    by_cases hks : dedupKey p ∈ s
    · rw [if_pos hks]
      have hne : dedupKey p ≠ k := fun he => hk (he ▸ hks)
      rw [List.find?_cons_of_neg _ (by simpa using hne), ih s k hk]
    · rw [if_neg hks]
      by_cases hpk : dedupKey p = k
      · rw [List.find?_cons_of_pos _ (by simpa using hpk),
          List.find?_cons_of_pos _ (by simpa using hpk)]
      · rw [List.find?_cons_of_neg _ (by simpa using hpk),
          List.find?_cons_of_neg _ (by simpa using hpk)]
        refine ih _ k ?_
        intro hmem
        rcases List.mem_cons.mp hmem with hmem | hmem
        · exact hpk hmem.symm
        · exact hk hmem

/-- Deduplicating the concatenation of a list with an already
deduplicated list deduplicates the underlying concatenation. -/
lemma deduplicate_players_append_dedup :
    ∀ (A B : List Player) (s : List (String × String × String)),
      deduplicate_players_aux (A ++ deduplicate_players_aux B []) s =
        deduplicate_players_aux (A ++ B) s := by
  intro A
  induction A with
  | nil =>
    intro B s
    simp only [List.nil_append]
    exact deduplicate_players_aux_compose B [] s s (by simp)
  | cons a A' ih =>
    intro B s
    simp only [List.cons_append, deduplicate_players_aux]
    by_cases hk : dedupKey a ∈ s
    · rw [if_pos hk, if_pos hk]; exact ih B s
    · rw [if_neg hk, if_neg hk]
      exact congrArg (a :: ·) (ih B (dedupKey a :: s))

/-- Claim C4: `deduplicate_players` is idempotent, its output has no two
elements sharing the `(Name, Rating, Province)` key, and for every key the
element kept is the first occurrence of that key in input order. -/
theorem c4_dedupe (L : List Player) :
    deduplicate_players (deduplicate_players L) = deduplicate_players L ∧
    (deduplicate_players L).Pairwise (fun a b => dedupKey a ≠ dedupKey b) ∧
    ∀ k, (deduplicate_players L).find? (fun p => decide (dedupKey p = k)) =
      L.find? (fun p => decide (dedupKey p = k)) := by
  refine ⟨?_, deduplicate_players_aux_pairwise L [], ?_⟩
  · exact deduplicate_players_aux_compose L [] [] [] (by simp)
  · intro k
    exact deduplicate_players_aux_find? L [] k (by simp)

/-- Claim C5: an upstream failing on every attempt makes the retrying
fetcher perform exactly `MAX_RETRIES = 3` requests, sleep `2 ** attempt`
seconds after each failed non-final attempt (1s then 2s), and propagate
the failure (`result = none`); it never retries beyond the bound. -/
theorem c5_retry_ceiling (upstream : Nat → Option Nat)
    (h : ∀ a, upstream a = none) :
    make_request_with_retries upstream =
      ⟨none, ScraperConfig.MAX_RETRIES, [1, 2]⟩ := by
  simp [make_request_with_retries, make_request_with_retries_from,
    ScraperConfig.MAX_RETRIES, h]

/-- Witness for claim C5 at the concrete always-failing upstream. -/
theorem c5_retry_ceiling_witness :
    make_request_with_retries (fun _ => none) =
      ⟨none, ScraperConfig.MAX_RETRIES, [1, 2]⟩ :=
  c5_retry_ceiling (fun _ => none) (fun _ => rfl)

/-- A row parsed into a player has passed `validate_player_data`. -/
lemma parse_player_row_valid : ∀ {cells : List Cell} {p : Player},
    parse_player_row cells = some p → validate_player_data p = true := by
  intro cells p h
  rcases cells with _ | ⟨c0, cells⟩; · simp [parse_player_row] at h
  rcases cells with _ | ⟨c1, cells⟩; · simp [parse_player_row] at h
  rcases cells with _ | ⟨c2, cells⟩; · simp [parse_player_row] at h
  rcases cells with _ | ⟨c3, cells⟩; · simp [parse_player_row] at h
  rcases cells with _ | ⟨c4, cells⟩; · simp [parse_player_row] at h
  rcases cells with _ | ⟨c5, cells⟩; · simp [parse_player_row] at h
  rcases cells with _ | ⟨c6, cells⟩; · simp [parse_player_row] at h
  simp only [parse_player_row] at h
  split at h
  · rename_i hv
    injection h with h
    exact h ▸ hv
  · exact absurd h (by simp)

/-- Claim C1 (amended): a player present in the output of
`scrape_players_page` has every required field non-empty after stripping,
the `Gender` field present (structurally guaranteed), and a rating Python
`int(...)` accepts; the `MAX_RATING` bound is not enforced at this
stage. -/
theorem c1_validity_gate (fetch : Nat → FetchOutcome) (page : Nat) (p : Player)
    (h : p ∈ scrape_players_page fetch page) :
    pyTruthy (pyStrip p.name) = true ∧ pyTruthy (pyStrip p.province) = true ∧
    pyTruthy (pyStrip p.rating) = true ∧ pyTruthy (pyStrip p.period) = true ∧
    pyTruthy (pyStrip p.lastPlayed) = true ∧ pyIntOk p.rating = true := by
  cases hf : fetch page with
  | err => simp only [scrape_players_page, hf] at h; simp at h
  | ok rows =>
    simp only [scrape_players_page, hf] at h
    by_cases hlen : rows.length ≤ 1
    · rw [if_pos hlen] at h; simp at h
    · rw [if_neg hlen] at h
      rcases List.mem_filterMap.mp h with ⟨cells, _, hp⟩
      have hv := parse_player_row_valid hp
      simp only [validate_player_data, Bool.and_eq_true] at hv
      exact ⟨hv.1.1.1.1.1, hv.1.1.1.1.2, hv.1.1.1.2, hv.1.1.2, hv.1.2, hv.2⟩

/-- Witness for claim C1 at a concrete page output. -/
theorem c1_validity_gate_witness :
    pyTruthy (pyStrip overMaxPlayer.name) = true ∧
    pyTruthy (pyStrip overMaxPlayer.province) = true ∧
    pyTruthy (pyStrip overMaxPlayer.rating) = true ∧
    pyTruthy (pyStrip overMaxPlayer.period) = true ∧
    pyTruthy (pyStrip overMaxPlayer.lastPlayed) = true ∧
    pyIntOk overMaxPlayer.rating = true :=
  c1_validity_gate overMaxFetch 1 overMaxPlayer (by decide)

/-- Claim C1 counterexample: a candidate whose rating `9999` is an
integer at or above the configured maximum `MAX_RATING = 5000` is
nevertheless present in the extraction-stage output, refuting the
out-of-range part of the claim. -/
theorem c1_over_max_rating_kept :
    scrape_players_page overMaxFetch 1 = [overMaxPlayer] ∧
    ScraperValidation.MAX_RATING ≤ digitsToNat overMaxPlayer.rating := by
  exact ⟨by decide, by decide⟩

/-- Claim C10: every history entry produced by the detail-page history
extraction has its `Period` equal to its `LastPlayed`; both are copied
from the date column of the source row. -/
theorem c10_period_eq_last_played (tables : List (List (List String)))
    (name : String) (e : HistoryEntry)
    (h : e ∈ extract_player_rating_history tables name) :
    e.period = e.lastPlayed := by
  unfold extract_player_rating_history at h
  rcases List.mem_flatten.mp h with ⟨l, hl, he⟩
  rcases List.mem_map.mp hl with ⟨table, _, rfl⟩
  unfold extract_rating_history_from_table at he
  split at he
  · simp at he
  · rcases List.mem_filterMap.mp he with ⟨row, _, hrow⟩
    split at hrow
    · exact absurd hrow (by simp)
    · split at hrow
      · injection hrow with h'
        rw [← h']
      · exact absurd hrow (by simp)

/-- Witness for claim C10 at a concrete extracted entry. -/
theorem c10_period_eq_last_played_witness :
    goodHistEntry.period = goodHistEntry.lastPlayed :=
  c10_period_eq_last_played [[histHeaderRow, goodHistRow]] "Alice" goodHistEntry
    (by decide)

/-- Spec-side condition of claim C7 on a history table row: at least
`MIN_COLUMNS_FOR_RATING_DATA` columns, a numeric period id, a date longer
than `MIN_DATE_LENGTH` characters, a numeric rating strictly below
`MAX_RATING`, and a trailing year strictly above `HISTORY_CUTOFF_YEAR`. -/
def historyRowSpecCond (row : List String) : Bool :=
  decide (ScraperValidation.MIN_COLUMNS_FOR_RATING_DATA ≤ row.length) &&
  pyIsDigit (row.getD 0 "") &&
  decide (ScraperValidation.MIN_DATE_LENGTH < (row.getD 1 "").data.length) &&
  pyIsDigit (row.getD 4 "") &&
  decide (digitsToNat (row.getD 4 "") < ScraperValidation.MAX_RATING) &&
  (match pyInt ((pySplit (row.getD 1 "") ", ").getLastD "") with
   | some year => decide (ScraperConfig.HISTORY_CUTOFF_YEAR < year)
   | none => false)

/-- Spec-side history entry of claim C7 built from a qualifying row. -/
def historyRowSpecEntry (name : String) (row : List String) : HistoryEntry :=
  ⟨name, row.getD 1 "", row.getD 4 "", row.getD 1 ""⟩

/-- Rewriting a filterMap whose function is an if-guarded constructor. -/
lemma filterMap_eq_filter_map {α β : Type} (f : α → Option β) (cond : α → Bool)
    (g : α → β) (hf : ∀ r, f r = if cond r then some (g r) else none) :
    ∀ l : List α, l.filterMap f = (l.filter cond).map g := by
  intro l
  induction l with
  | nil => rfl
  | cons a l ih =>
    rw [List.filterMap_cons, hf a, List.filter_cons]
    by_cases hc : cond a
    · simp [hc, ih]
    · simp [hc, ih]

/-- A string of digits is truthy. -/
lemma pyTruthy_of_isDigit {s : String} (h : pyIsDigit s = true) :
    pyTruthy s = true := by
  simp only [pyIsDigit, Bool.and_eq_true] at h
  exact h.1

/-- A string longer than any bound is truthy. -/
lemma pyTruthy_of_long {s : String} {n : Nat}
    (h : decide (n < s.data.length) = true) : pyTruthy s = true := by
  rw [decide_eq_true_iff] at h
  cases hl : s.data with
  | nil => rw [hl] at h; simp at h
  | cons a t => simp [pyTruthy, hl]

/-- The code's row validity conjunction agrees with the spec-side
condition of claim C7 (minus the column-count conjunct). -/
lemma valid_entry_spec_eq (c0 c1 c4 : String) :
    (is_valid_rating_entry c0 c1 c4 && is_after_cutoff_year c1) =
    (pyIsDigit c0 &&
      decide (ScraperValidation.MIN_DATE_LENGTH < c1.data.length) &&
      pyIsDigit c4 &&
      decide (digitsToNat c4 < ScraperValidation.MAX_RATING) &&
      (match pyInt ((pySplit c1 ", ").getLastD "") with
       | some year => decide (ScraperConfig.HISTORY_CUTOFF_YEAR < year)
       | none => false)) := by
  have hM' : decide (digitsToNat c4 < ScraperValidation.MAX_RATING)
      = !decide (ScraperValidation.MAX_RATING ≤ digitsToNat c4) := by
    rcases Nat.lt_or_ge (digitsToNat c4) ScraperValidation.MAX_RATING with h | h
    · simp [h, Nat.not_le.mpr h]
    · simp [Nat.not_lt.mpr h, h]
  simp only [is_valid_rating_entry, is_after_cutoff_year]
  rw [hM']
  have h4 := @pyTruthy_of_isDigit c4
  have h0 := @pyTruthy_of_isDigit c0
  have h1 := @pyTruthy_of_long c1 ScraperValidation.MIN_DATE_LENGTH
  revert h4 h0 h1
  generalize pyTruthy c4 = T4
  generalize pyIsDigit c4 = D4
  generalize pyTruthy c0 = T0
  generalize pyIsDigit c0 = D0
  generalize pyTruthy c1 = T1
  generalize decide (ScraperValidation.MIN_DATE_LENGTH < c1.data.length) = L
  generalize decide (ScraperValidation.MAX_RATING ≤ digitsToNat c4) = M
  generalize (match pyInt ((pySplit c1 ", ").getLastD "") with
    | some year => decide (ScraperConfig.HISTORY_CUTOFF_YEAR < year)
    | none => false) = Y
  intro h4 h0 h1
  cases T4 <;> cases D4 <;> cases T0 <;> cases D0 <;> cases T1 <;> cases L <;>
    cases M <;> cases Y <;> simp_all

/-- Pointwise agreement between the code's row filter and the spec-side
condition of claim C7. -/
lemma history_row_cases (name : String) (r : List String) :
    (if r.length < ScraperValidation.MIN_COLUMNS_FOR_RATING_DATA then none
     else
      if is_valid_rating_entry (r.getD 0 "") (r.getD 1 "") (r.getD 4 "") &&
          is_after_cutoff_year (r.getD 1 "") then
        some (⟨name, r.getD 1 "", r.getD 4 "", r.getD 1 ""⟩ : HistoryEntry)
      else none) =
    if historyRowSpecCond r then some (historyRowSpecEntry name r) else none := by
  by_cases h5 : r.length < ScraperValidation.MIN_COLUMNS_FOR_RATING_DATA
  · have hlow : decide (ScraperValidation.MIN_COLUMNS_FOR_RATING_DATA ≤ r.length) = false := by
      simp only [decide_eq_false_iff_not]; omega
    have hc : historyRowSpecCond r = false := by
      simp [historyRowSpecCond, hlow]
    rw [if_pos h5, hc]
    simp
  · rw [if_neg h5]
    have h5' : decide (ScraperValidation.MIN_COLUMNS_FOR_RATING_DATA ≤ r.length) = true := by
      simp only [decide_eq_true_iff]; omega
    rw [valid_entry_spec_eq (r.getD 0 "") (r.getD 1 "") (r.getD 4 "")]
    have hspec : historyRowSpecCond r =
        (pyIsDigit (r.getD 0 "") &&
          decide (ScraperValidation.MIN_DATE_LENGTH < (r.getD 1 "").data.length) &&
          pyIsDigit (r.getD 4 "") &&
          decide (digitsToNat (r.getD 4 "") < ScraperValidation.MAX_RATING) &&
          (match pyInt ((pySplit (r.getD 1 "") ", ").getLastD "") with
           | some year => decide (ScraperConfig.HISTORY_CUTOFF_YEAR < year)
           | none => false)) := by
      simp only [historyRowSpecCond]
      rw [h5', Bool.true_and]
    rw [hspec]
    rfl

/-- Claim C7 (amended): in a table with at least two rows, a row is
emitted as a history entry exactly when it meets the spec-side condition
(at least 5 columns; numeric period id; date longer than 5 characters;
numeric rating strictly below the maximum; trailing year strictly above
the cutoff); tables with fewer than two rows emit nothing.  In
particular, Scenario C holds: the 2022 row is included and the 2005 row
is excluded. -/
theorem c7_history_row_filter :
    (∀ (name : String) (rows : List (List String)), 2 ≤ rows.length →
      extract_rating_history_from_table rows name =
        (rows.filter historyRowSpecCond).map (historyRowSpecEntry name)) ∧
    extract_rating_history_from_table [histHeaderRow, goodHistRow] "Alice" =
      [goodHistEntry] ∧
    extract_rating_history_from_table [histHeaderRow, oldHistRow] "Alice" = [] := by
  refine ⟨?_, by decide, by decide⟩
  intro name rows hlen
  unfold extract_rating_history_from_table
  rw [if_neg (by omega)]
  exact filterMap_eq_filter_map _ historyRowSpecCond (historyRowSpecEntry name)
    (history_row_cases name) rows

/-- Witness for claim C7 at a concrete two-row table. -/
theorem c7_history_row_filter_witness :
    extract_rating_history_from_table [histHeaderRow, goodHistRow] "Alice" =
      (([histHeaderRow, goodHistRow]).filter historyRowSpecCond).map
        (historyRowSpecEntry "Alice") :=
  c7_history_row_filter.1 "Alice" [histHeaderRow, goodHistRow] (by decide)

/-- Claim C7 counterexample: the Scenario C row meets every condition of
the claim, yet a detail page whose table consists of that single row
emits no history entry, because `extract_rating_history_from_table`
also requires the table to have at least two rows. -/
theorem c7_single_row_table_dropped :
    historyRowSpecCond goodHistRow = true ∧
    extract_player_rating_history [[goodHistRow]] "Alice" = [] := by
  exact ⟨by decide, by decide⟩

/-! The harvest loop: claims C2 and C3. -/

/-- Claim C2 (amended): a transport error that survives the retry layer
is caught inside `scrape_players_page`, which returns an empty list, so
the harvest loop terminates normally at that page — the `DONE` path with
a final checkpoint at `page - 1` — rather than propagating the failure. -/
theorem c2_transport_error_reaches_done (fetch : Nat → FetchOutcome)
    (ageFn : String → Option String) (start : Nat) (acc : List Player)
    (cps : List Nat) (fuel : Nat) (h : fetch start = FetchOutcome.err) :
    scrape_players_page fetch start = [] ∧
    harvestLoop (procPage fetch ageFn) none true start acc cps (fuel + 1) =
      some (acc, cps ++ [start - 1]) := by
  have hs : scrape_players_page fetch start = [] := by
    simp [scrape_players_page, h]
  refine ⟨hs, ?_⟩
  simp [harvestLoop, procPage, hs, enrichPage]

/-- Witness for claim C2 at the concrete always-failing upstream. -/
theorem c2_transport_error_reaches_done_witness :
    scrape_players_page (fun _ => FetchOutcome.err) 1 = [] ∧
    harvestLoop (procPage (fun _ => FetchOutcome.err) (fun _ => none)) none true 1 [] []
      (4 + 1) = some ([], [0]) :=
  c2_transport_error_reaches_done (fun _ => FetchOutcome.err) (fun _ => none) 1 [] [] 4 rfl

/-- Claim C2 counterexample: with an upstream that fails with a transport
error on every fetch even after retries, the harvest loop reaches its
normal termination and returns a value (the `DONE` state, with a final
checkpoint), instead of reaching `FAILED` and propagating the failure as
the claim requires. -/
theorem c2_failed_fetch_not_propagated :
    harvestLoop (procPage (fun _ => FetchOutcome.err) (fun _ => none)) none true 1 [] [] 5 =
      some ([], [0]) := by
  decide

/-- Break-time checkpoint shape: appending the final `page - 1` value to
a strictly increasing checkpoint list bounded by `page` keeps the list
non-decreasing, and strictly increasing away from its last element. -/
lemma chain_final (cps0 : List Nat) (page : Nat)
    (hlt : ∀ x ∈ cps0, x < page) (hchain : List.Chain' (· < ·) cps0) :
    List.Chain' (· ≤ ·) (cps0 ++ [page - 1]) ∧
    List.Chain' (· < ·) (cps0 ++ [page - 1]).dropLast := by
  refine ⟨?_, ?_⟩
  · rw [List.chain'_append]
    refine ⟨hchain.imp (fun _ _ h => Nat.le_of_lt h), List.chain'_singleton _, ?_⟩
    intro x hx y hy
    obtain ⟨hne, rfl⟩ := List.mem_getLast?_eq_getLast hx
    have hmem := hlt _ (List.getLast_mem hne)
    simp only [List.head?_cons, Option.mem_def, Option.some.injEq] at hy
    omega
  · rw [List.dropLast_concat]
    exact hchain

/-- Invariant of the harvest loop: with a session, starting from a
strictly increasing checkpoint list bounded by the current page, the
final checkpoint list is non-decreasing and strictly increasing away
from its last element. -/
lemma harvestLoop_cps_mono :
    ∀ (fuel : Nat) (proc : Nat → List Player) (mp : Option Nat) (page : Nat)
      (acc ps : List Player) (cps0 cps : List Nat),
      harvestLoop proc mp true page acc cps0 fuel = some (ps, cps) →
      (∀ x ∈ cps0, x < page) → List.Chain' (· < ·) cps0 →
      List.Chain' (· ≤ ·) cps ∧ List.Chain' (· < ·) cps.dropLast := by
  intro fuel
  induction fuel with
  | zero =>
    intro proc mp page acc ps cps0 cps h _ _
    simp [harvestLoop] at h
  | succ fuel ih =>
    intro proc mp page acc ps cps0 cps h hlt hchain
    simp only [harvestLoop] at h
    split at h
    · simp only [if_pos, Option.some.injEq, Prod.mk.injEq] at h
      obtain ⟨rfl, rfl⟩ := h
      simpa using chain_final cps0 page hlt hchain
    · split at h
      · simp only [Option.some.injEq, Prod.mk.injEq] at h
        obtain ⟨rfl, rfl⟩ := h
        simpa using chain_final cps0 page hlt hchain
      · simp only [Bool.true_and] at h
        by_cases h5 : (page % 5 == 0) = true
        · rw [if_pos h5] at h
          refine ih proc mp (page + 1) _ ps _ cps h ?_ ?_
          · intro x hx
            rcases List.mem_append.mp hx with hx | hx
            · exact Nat.lt_succ_of_lt (hlt x hx)
            · simp only [List.mem_singleton] at hx
              omega
          · rw [List.chain'_append]
            refine ⟨hchain, List.chain'_singleton _, ?_⟩
            intro x hx y hy
            obtain ⟨hne, rfl⟩ := List.mem_getLast?_eq_getLast hx
            have hmem := hlt _ (List.getLast_mem hne)
            simp only [List.head?_cons, Option.mem_def, Option.some.injEq] at hy
            omega
        · rw [if_neg h5] at h
          refine ih proc mp (page + 1) _ ps _ cps h ?_ hchain
          intro x hx
          exact Nat.lt_succ_of_lt (hlt x hx)

/-- Claim C3 (amended): across a successful harvest run with a session,
the sequence of checkpointed last-completed-page values is non-decreasing
throughout, and strictly increasing up to (but possibly excluding) the
final loop-exit checkpoint, which can repeat the last periodic value. -/
theorem c3_checkpoint_monotone (fetch : Nat → FetchOutcome)
    (ageFn : String → Option String) (mp : Option Nat) (start fuel : Nat)
    (ps : List Player) (cps : List Nat)
    (h : harvestLoop (procPage fetch ageFn) mp true start [] [] fuel = some (ps, cps)) :
    List.Chain' (· ≤ ·) cps ∧ List.Chain' (· < ·) cps.dropLast :=
  harvestLoop_cps_mono fuel (procPage fetch ageFn) mp start [] ps [] cps h
    (by simp) (by simp)

/-- Witness for claim C3 at a concrete one-page run. -/
theorem c3_checkpoint_monotone_witness :
    List.Chain' (· ≤ ·) [0] ∧ List.Chain' (· < ·) ([0] : List Nat).dropLast :=
  c3_checkpoint_monotone (fun _ => FetchOutcome.err) (fun _ => none) none 1 1 [] [0]
    (by decide)

/-- A fetcher serving the same valid player row on pages 1 through 5 and
nothing afterwards. -/
def fivePageFetch : Nat → FetchOutcome := fun page =>
  if page ≤ 5 then FetchOutcome.ok [[], overMaxCells] else FetchOutcome.ok []

/-- Claim C3 counterexample: after five non-empty pages the loop writes
the periodic checkpoint 5 and then, on the empty page 6, the final
checkpoint `6 - 1 = 5` again, so the written sequence `[5, 5]` is not
strictly increasing. -/
theorem c3_checkpoint_repeat :
    (harvestLoop (procPage fivePageFetch (fun _ => none)) none true 1 [] [] 10).map
        Prod.snd = some [5, 5] ∧
    ¬ List.Chain' (· < ·) [5, 5] := by
  refine ⟨by decide, ?_⟩
  intro hc
  exact absurd (List.chain'_cons.mp hc).1 (by omega)

/-! Resume semantics: claim C9. -/

/-- The harvest loop accumulates on top of its starting accumulator and
checkpoint list. -/
lemma harvestLoop_shift :
    ∀ (fuel : Nat) (proc : Nat → List Player) (mp : Option Nat) (s : Bool)
      (page : Nat) (acc : List Player) (cps : List Nat),
      harvestLoop proc mp s page acc cps fuel =
        (harvestLoop proc mp s page [] [] fuel).map
          (fun r => (acc ++ r.1, cps ++ r.2)) := by
  intro fuel
  induction fuel with
  | zero => intro proc mp s page acc cps; rfl
  | succ fuel ih =>
    intro proc mp s page acc cps
    simp only [harvestLoop]
    by_cases hmp : (match mp with
        | some m => decide (0 < m) && decide (m < page)
        | none => false) = true
    · rw [if_pos hmp, if_pos hmp]
      simp
    · rw [if_neg hmp, if_neg hmp]
      by_cases hpp : (proc page).isEmpty = true
      · rw [if_pos hpp, if_pos hpp]
        simp
      · rw [if_neg hpp, if_neg hpp]
        rw [ih proc mp s (page + 1) (acc ++ proc page), ih proc mp s (page + 1) ([] ++ proc page)]
        cases hres : harvestLoop proc mp s (page + 1) [] [] fuel with
        | none => simp
        | some r =>
          by_cases hc5 : (s && page % 5 == 0) = true
          · simp [hc5, List.append_assoc]
          · simp [hc5, List.append_assoc]

/-- Zero pages contribute no players. -/
lemma pagesFrom_zero (proc : Nat → List Player) (start : Nat) :
    pagesFrom proc start 0 = [] := by
  simp [pagesFrom]

/-- Splitting the first page off a page range. -/
lemma pagesFrom_succ (proc : Nat → List Player) (start c : Nat) :
    pagesFrom proc start (c + 1) = proc start ++ pagesFrom proc (start + 1) c := by
  simp only [pagesFrom, List.range_succ_eq_map, List.map_cons, List.flatten_cons,
    Nat.add_zero, List.map_map]
  have hf : ((fun i => proc (start + i)) ∘ Nat.succ) = fun i => proc (start + 1 + i) :=
    funext (fun i => congrArg proc (by omega))
  rw [hf]

/-- Running the harvest fresh and stopping-then-resuming after `c`
non-empty pages traverse the same pages: the resumed run picks up at page
`start + c` and the accumulated players split as the first `c` pages'
players followed by the resumed run's players. -/
lemma harvestLoop_split :
    ∀ (c : Nat) (proc : Nat → List Player) (start fuel : Nat)
      (all : List Player) (cps : List Nat),
      (∀ i, i < c → proc (start + i) ≠ []) →
      harvestLoop proc none true start [] [] fuel = some (all, cps) →
      ∃ rest cps2,
        harvestLoop proc none true (start + c) [] [] (fuel - c) = some (rest, cps2) ∧
        pagesFrom proc start c ++ rest = all := by
  intro c
  induction c with
  | zero =>
    intro proc start fuel all cps _ h
    exact ⟨all, cps, by simpa using h, by simp [pagesFrom_zero]⟩
  | succ c ih =>
    intro proc start fuel all cps hne h
    cases fuel with
    | zero => simp [harvestLoop] at h
    | succ fuel =>
      simp only [harvestLoop] at h
      have hne0 : proc start ≠ [] := by
        have := hne 0 (Nat.succ_pos c)
        simpa using this
      rw [if_neg (by simp)] at h
      rw [if_neg (by simpa using hne0)] at h
      rw [harvestLoop_shift] at h
      cases hres : harvestLoop proc none true (start + 1) [] [] fuel with
      | none => rw [hres] at h; simp at h
      | some r =>
        rw [hres] at h
        simp only [Option.map_some', Option.some.injEq, Prod.mk.injEq] at h
        obtain ⟨h1, _⟩ := h
        obtain ⟨rest, cps2, hrest, hpages⟩ := ih proc (start + 1) fuel r.1 r.2
          (fun i hi => by
            have h' := hne (i + 1) (by omega)
            have e : start + (i + 1) = start + 1 + i := by omega
            rw [e] at h'
            exact h')
          hres
        refine ⟨rest, cps2, ?_, ?_⟩
        · have e1 : start + (c + 1) = start + 1 + c := by omega
          have e2 : fuel + 1 - (c + 1) = fuel - c := by omega
          rw [e1, e2]
          exact hrest
        · rw [pagesFrom_succ, List.append_assoc, hpages]
          simpa using h1

/-- Claim C9 (amended): for a deterministic upstream, a fresh run and a
crash-resume run traverse the same pages — the resumed harvest starting
at `last completed page + 1` yields exactly the players of the remaining
pages, and the snapshot concatenated with them is the fresh run's raw
accumulation.  The resumed upload list (snapshot ++ deduplicated new
players) equals the fresh run's deduplicated output only after one
further deduplication: the resumed list itself may retain key-duplicates
that span the snapshot boundary. -/
theorem c9_resume_equivalence (fetch : Nat → FetchOutcome)
    (ageFn : String → Option String) (fuel c : Nat) (all : List Player)
    (cps : List Nat)
    (hne : ∀ i, i < c → procPage fetch ageFn (1 + i) ≠ [])
    (h : harvestLoop (procPage fetch ageFn) none true 1 [] [] fuel = some (all, cps)) :
    ∃ rest cps2,
      harvestLoop (procPage fetch ageFn) none true (1 + c) [] [] (fuel - c) =
        some (rest, cps2) ∧
      pagesFrom (procPage fetch ageFn) 1 c ++ rest = all ∧
      deduplicate_players
          (pagesFrom (procPage fetch ageFn) 1 c ++ deduplicate_players rest) =
        deduplicate_players all := by
  obtain ⟨rest, cps2, h1, h2⟩ :=
    harvestLoop_split c (procPage fetch ageFn) 1 fuel all cps hne h
  refine ⟨rest, cps2, h1, h2, ?_⟩
  have hd := deduplicate_players_append_dedup (pagesFrom (procPage fetch ageFn) 1 c) rest []
  simp only [deduplicate_players]
  rw [hd, h2]

/-- One listing row for a player `"Bob"`, period 411. -/
def bobCellsA : List Cell :=
  [⟨"1", none⟩, ⟨"Bob", none⟩, ⟨"ON", none⟩, ⟨"M", none⟩,
   ⟨"1200", none⟩, ⟨"411", none⟩, ⟨"Apr 1, 2024", none⟩]

/-- The same player and rating with a different period, hence the same
dedup key but a different record. -/
def bobCellsB : List Cell :=
  [⟨"1", none⟩, ⟨"Bob", none⟩, ⟨"ON", none⟩, ⟨"M", none⟩,
   ⟨"1200", none⟩, ⟨"412", none⟩, ⟨"May 1, 2024", none⟩]

/-- The player parsed from `bobCellsA`. -/
def bobA : Player := ⟨"Bob", "ON", "M", "1200", "411", "Apr 1, 2024", "", none⟩

/-- The player parsed from `bobCellsB`. -/
def bobB : Player := ⟨"Bob", "ON", "M", "1200", "412", "May 1, 2024", "", none⟩

/-- A two-page upstream: page 1 yields `bobA`, page 2 yields `bobB`. -/
def resumeFetch : Nat → FetchOutcome := fun page =>
  if page = 1 then FetchOutcome.ok [[], bobCellsA]
  else if page = 2 then FetchOutcome.ok [[], bobCellsB]
  else FetchOutcome.ok []

/-- Claim C9 counterexample: the fresh run deduplicates to `[bobA]`, but
resuming after page 1 (snapshot `[bobA]`, new pages deduplicated to
`[bobB]`) uploads `[bobA, bobB]`: `bobB` shares its key with `bobA` yet
appears in the resumed output and not in the fresh one, so the two final
record sets differ even modulo ordering. -/
theorem c9_resume_not_equivalent :
    (harvestLoop (procPage resumeFetch (fun _ => none)) none true 1 [] [] 10).map
        (fun r => deduplicate_players r.1) = some [bobA] ∧
    (harvestLoop (procPage resumeFetch (fun _ => none)) none true 2 [] [] 9).map
        (fun r => [bobA] ++ deduplicate_players r.1) = some [bobA, bobB] ∧
    dedupKey bobB = dedupKey bobA ∧ bobB ∉ [bobA] := by
  refine ⟨by decide, by decide, by decide, by decide⟩

/-- Witness for claim C9 at the concrete two-page upstream, resuming
after page 1. -/
theorem c9_resume_equivalence_witness :
    ∃ rest cps2,
      harvestLoop (procPage resumeFetch (fun _ => none)) none true (1 + 1) [] [] (10 - 1) =
        some (rest, cps2) ∧
      pagesFrom (procPage resumeFetch (fun _ => none)) 1 1 ++ rest = [bobA, bobB] ∧
      deduplicate_players
          (pagesFrom (procPage resumeFetch (fun _ => none)) 1 1 ++
            deduplicate_players rest) =
        deduplicate_players [bobA, bobB] :=
  c9_resume_equivalence resumeFetch (fun _ => none) 10 1 [bobA, bobB] [2]
    (fun i hi => by
      have h0 : i = 0 := by omega
      subst h0
      decide)
    (by decide)

/-! The sheet sink: claims C8 and C6. -/

/-- A batch whose append succeeds makes exactly one call. -/
lemma uploadOneBatch_ok (k : Nat) (b : List (List String)) :
    uploadOneBatch (fun _ => none) k b 0 2 = (k + 1, [SheetOp.append b], [], none) := by
  simp [uploadOneBatch]

/-- With a never-failing oracle every batch is appended once, in order,
with one `BATCH_DELAY` sleep per batch. -/
lemma runBatches_ok :
    ∀ (bs : List (List (List String))) (k : Nat),
      runBatches (fun _ => none) k bs =
        (k + bs.length, bs.map SheetOp.append,
          List.replicate bs.length ScraperConfig.BATCH_DELAY, none) := by
  intro bs
  induction bs with
  | nil => intro k; simp [runBatches]
  | cons b rest ih =>
    intro k
    simp [runBatches, uploadOneBatch_ok, ih (k + 1), List.replicate_succ]
    omega

/-- With a never-failing oracle the first session attempt succeeds. -/
lemma sessionAttemptLoop_ok (k : Nat) (batches : List (List (List String))) :
    sessionAttemptLoop (fun _ => none) k batches 3 0 =
      (true, batches.map SheetOp.append,
        List.replicate batches.length ScraperConfig.BATCH_DELAY) := by
  simp [sessionAttemptLoop, runBatches_ok]

/-- Batch size list of `make_batches`, by induction on the quotient. -/
lemma make_batches_sizes_aux :
    ∀ (q B r : Nat) (rows : List (List String)), 0 < B → r < B →
      rows.length = q * B + r →
      (make_batches rows B).map List.length =
        List.replicate q B ++ (if r = 0 then [] else [r]) := by
  intro q
  induction q with
  | zero =>
    intro B r rows hB hr hlen
    simp only [Nat.zero_mul, Nat.zero_add] at hlen
    by_cases hr0 : r = 0
    · have htb : (rows.length + B - 1) / B = 0 := Nat.div_eq_of_lt (by omega)
      simp [make_batches, htb, hr0]
    · have htb : (rows.length + B - 1) / B = 1 := by
        apply Nat.div_eq_of_lt_le <;> omega
      have hmin : min B rows.length = r := by
        rw [hlen]
        exact Nat.min_eq_right (Nat.le_of_lt hr)
      simp [make_batches, htb, List.range_succ, List.length_take, hmin, hr0]
  | succ q ih =>
    intro B r rows hB hr hlen
    rw [Nat.succ_mul] at hlen
    have hge : B ≤ rows.length := by
      generalize hqB : q * B = m at hlen
      omega
    have hlen' : (rows.drop B).length = q * B + r := by
      rw [List.length_drop]
      generalize hqB : q * B = m at hlen ⊢
      omega
    have htb : (rows.length + B - 1) / B = ((rows.drop B).length + B - 1) / B + 1 := by
      rw [List.length_drop]
      have h2 : rows.length + B - 1 = (rows.length - B + B - 1) + B := by omega
      rw [h2, Nat.add_div_right _ hB]
    have hhead : (rows.take B).length = B := by
      rw [List.length_take]
      exact Nat.min_eq_left hge
    have hfun : (List.length ∘ (fun i => List.take B (List.drop (i * B) rows)) ∘ Nat.succ) =
        (fun i => (List.take B (List.drop (i * B) (List.drop B rows))).length) := by
      funext i
      simp only [Function.comp_apply, List.drop_drop, Nat.succ_mul, Nat.add_comm]
    simp only [make_batches, htb, List.range_succ_eq_map, List.map_cons, List.map_map,
      Nat.zero_mul, List.drop_zero, List.replicate_succ, hhead, List.cons_append]
    rw [hfun]
    congr 1
    have hih := ih B r (rows.drop B) hB hr hlen'
    simp only [make_batches, List.map_map, Function.comp] at hih
    exact hih

/-- Batch size list of `make_batches`: `len / B` full batches of `B` rows
and, when `B` does not divide `len`, one final batch of `len mod B`
rows. -/
lemma make_batches_sizes (rows : List (List String)) (B : Nat) (hB : 0 < B) :
    (make_batches rows B).map List.length =
      List.replicate (rows.length / B) B ++
        (if rows.length % B = 0 then [] else [rows.length % B]) :=
  make_batches_sizes_aux (rows.length / B) B (rows.length % B) rows hB
    (Nat.mod_lt _ hB)
    (by rw [Nat.mul_comm]; exact (Nat.div_add_mod rows.length B).symm)

/-- Claim C8: on a successful upload the sheet sink performs exactly one
clear and one header write, followed by one append per batch in order,
`(n + B - 1) / B` batches in total (the ceiling of `n / B`), of sizes `B`
except for a final batch of `n mod B` rows when `B` does not divide `n`;
the write returns `True`. -/
theorem c8_batched_upload (rows : List (List String)) (B : Nat) (hB : 0 < B) :
    write_to_sheet_with_retry (fun _ => none) rows B 3 =
      (true,
       SheetOp.clear :: SheetOp.header :: (make_batches rows B).map SheetOp.append,
       List.replicate (make_batches rows B).length ScraperConfig.BATCH_DELAY) ∧
    (make_batches rows B).length = (rows.length + B - 1) / B ∧
    (make_batches rows B).map List.length =
      List.replicate (rows.length / B) B ++
        (if rows.length % B = 0 then [] else [rows.length % B]) := by
  refine ⟨?_, ?_, make_batches_sizes rows B hB⟩
  · simp [write_to_sheet_with_retry, sessionAttemptLoop_ok]
  · simp [make_batches]

set_option maxRecDepth 10000 in
/-- Witness for claim C8 at Scenario D: 250 rows with batch size 100
yield 3 append calls of sizes 100, 100 and 50. -/
theorem c8_batched_upload_witness :
    write_to_sheet_with_retry (fun _ => none) (List.replicate 250 ["x"]) 100 3 =
      (true,
       SheetOp.clear :: SheetOp.header ::
         (make_batches (List.replicate 250 ["x"]) 100).map SheetOp.append,
       List.replicate (make_batches (List.replicate 250 ["x"]) 100).length
         ScraperConfig.BATCH_DELAY) ∧
    (make_batches (List.replicate 250 ["x"]) 100).length = (250 + 100 - 1) / 100 ∧
    (make_batches (List.replicate 250 ["x"]) 100).map List.length =
      List.replicate (250 / 100) 100 ++ (if 250 % 100 = 0 then [] else [250 % 100]) :=
  c8_batched_upload (List.replicate 250 ["x"]) 100 (by decide)

/-- A non-empty row list yields a first batch of the first `B` rows. -/
lemma make_batches_cons (rows : List (List String)) (B : Nat) (hB : 0 < B)
    (hrows : rows ≠ []) :
    ∃ tail, make_batches rows B = rows.take B :: tail := by
  have hlen : 1 ≤ rows.length := by
    cases rows with
    | nil => exact absurd rfl hrows
    | cons a t => simp
  have h1 : 1 ≤ (rows.length + B - 1) / B := by
    rw [Nat.le_div_iff_mul_le hB]
    omega
  obtain ⟨t, ht⟩ : ∃ t, (rows.length + B - 1) / B = t + 1 :=
    ⟨(rows.length + B - 1) / B - 1, by omega⟩
  refine ⟨(List.range t).map ((fun i => (rows.drop (i * B)).take B) ∘ Nat.succ), ?_⟩
  simp [make_batches, ht, List.range_succ_eq_map, List.map_map]

/-- A batch whose appends always fail with a retryable error makes two
attempts, sleeps 3 seconds between them, and raises. -/
lemma uploadOneBatch_fail (m : String) (hm : handle_google_api_error m = true)
    (k : Nat) (b : List (List String)) :
    uploadOneBatch (fun _ => some m) k b 0 2 =
      (k + 2, [SheetOp.append b, SheetOp.append b], [3], some m) := by
  simp [uploadOneBatch, hm]

/-- With an always-failing retryable oracle the run stops inside the
first batch. -/
lemma runBatches_fail (m : String) (hm : handle_google_api_error m = true)
    (k : Nat) (b : List (List String)) (rest : List (List (List String))) :
    runBatches (fun _ => some m) k (b :: rest) =
      (k + 2, [SheetOp.append b, SheetOp.append b], [3], some m) := by
  simp [runBatches, uploadOneBatch_fail m hm]

/-- With an always-failing retryable oracle the session loop re-clears,
rewrites the header and restarts twice (sleeping 5 then 10 seconds), and
finally returns `False` after the third session attempt. -/
lemma sessionAttemptLoop_fail (m : String) (hm : handle_google_api_error m = true)
    (k : Nat) (b : List (List String)) (rest : List (List (List String))) :
    sessionAttemptLoop (fun _ => some m) k (b :: rest) 3 0 =
      (false,
       [SheetOp.append b, SheetOp.append b, SheetOp.clear, SheetOp.header,
        SheetOp.append b, SheetOp.append b, SheetOp.clear, SheetOp.header,
        SheetOp.append b, SheetOp.append b],
       [3, 5, 3, 10, 3]) := by
  simp [sessionAttemptLoop, runBatches_fail m hm, hm]

/-- Claim C6 (amended): when every append fails with a *retryable* error,
each session attempt exhausts the two per-batch attempts on batch 1
(sleeping 3s between them), then the session-level retry re-clears the
destination, rewrites the header and restarts from batch 1, sleeping 5s
then 10s before the second and third session attempts, and the write
returns `False` after exhausting the three session attempts; with no
errors it returns `True` once every batch is accepted.  (On a
non-retryable error it instead returns `False` immediately — see the
counterexample.) -/
theorem c6_session_retry (rows : List (List String)) (B : Nat) (m : String)
    (hB : 0 < B) (hrows : rows ≠ []) (hm : handle_google_api_error m = true) :
    write_to_sheet_with_retry (fun _ => some m) rows B 3 =
      (false,
       [SheetOp.clear, SheetOp.header,
        SheetOp.append (rows.take B), SheetOp.append (rows.take B),
        SheetOp.clear, SheetOp.header,
        SheetOp.append (rows.take B), SheetOp.append (rows.take B),
        SheetOp.clear, SheetOp.header,
        SheetOp.append (rows.take B), SheetOp.append (rows.take B)],
       [3, 5, 3, 10, 3]) ∧
    (write_to_sheet_with_retry (fun _ => none) rows B 3).1 = true := by
  obtain ⟨tail, htail⟩ := make_batches_cons rows B hB hrows
  refine ⟨?_, ?_⟩
  · simp [write_to_sheet_with_retry, htail, sessionAttemptLoop_fail m hm]
  · simp [write_to_sheet_with_retry, sessionAttemptLoop_ok]

/-- Witness for claim C6 at a concrete retryable error. -/
theorem c6_session_retry_witness :
    write_to_sheet_with_retry (fun _ => some "503") [["x"]] 5000 3 =
      (false,
       [SheetOp.clear, SheetOp.header,
        SheetOp.append ([["x"]].take 5000), SheetOp.append ([["x"]].take 5000),
        SheetOp.clear, SheetOp.header,
        SheetOp.append ([["x"]].take 5000), SheetOp.append ([["x"]].take 5000),
        SheetOp.clear, SheetOp.header,
        SheetOp.append ([["x"]].take 5000), SheetOp.append ([["x"]].take 5000)],
       [3, 5, 3, 10, 3]) ∧
    (write_to_sheet_with_retry (fun _ => none) [["x"]] 5000 3).1 = true :=
  c6_session_retry [["x"]] 5000 "503" (by decide) (by decide) (by decide)

/-- Claim C6 counterexample: a *non-retryable* error ("401 unauthorized")
makes the write return `False` on the very first session attempt, with no
re-clear and no session backoff — so `False` is returned without
exhausting the session retries, refuting the claim's "returns false only
after exhausting session retries". -/
theorem c6_non_retryable_immediate_false :
    write_to_sheet_with_retry (fun _ => some "401 unauthorized") [["x"]] 5000 3 =
      (false, [SheetOp.clear, SheetOp.header, SheetOp.append [["x"]]], []) ∧
    handle_google_api_error "401 unauthorized" = false := by
  refine ⟨?_, by decide⟩
  simp [write_to_sheet_with_retry, sessionAttemptLoop, runBatches, uploadOneBatch,
    make_batches, handle_google_api_error, pyLower, pyContains, hasSubAux, listStartsWith]

end TTCan
